import Mathlib

/-!
Verification development for the `crypsi` library (`src/lib/aes_encryption.js`
and `src/lib/rsa.js`).

Modelling conventions (shallow embedding of the JavaScript source):
* JS strings are modelled as `List Char` (`JsStr`); JS `Buffer`s as `List Nat`
  with each element intended `< 256`.
* The JS numbers that matter here are `parseInt` results, string lengths, and
  a `parseInt` result divided by 8; all are exact multiples of 1/8 on which
  IEEE doubles are exact, so they are modelled by the exact fraction type
  `JsNumber` (value in units of 1/8) and by `Nat`. `NaN` (from a failed
  `parseInt`) is modelled as `none` of an `Option`; JS strict equality `===`
  against `NaN` is always false, which the `Option` comparison reproduces.
* Exceptions are modelled with `Except CrypsiError`.
* The platform cipher provider (`crypto.createCipheriv` / `createDecipheriv`)
  is an external collaborator; it is modelled as an explicit `CipherProvider`
  argument, and randomness (`keyUtil.generateRandomIV`) as an explicit iv
  argument.
-/

deriving instance DecidableEq for Except

namespace Crypsi

/-- JS strings, modelled as their character sequences. -/
abbrev JsStr := List Char

/-- Byte sequences (JS `Buffer`), each element intended `< 256`. -/
abbrev Bytes := List Nat

/-- Clamping index computation of JS `TypedArray.prototype.subarray`:
a negative index counts from the end, and the result is clamped to `[0, len]`. -/
def jsIndex (len : Nat) (i : Int) : Nat :=
  if i < 0 then (max ((len : Int) + i) 0).toNat else min i.toNat len

/-- JS `buf.subarray(s, e)` on a byte sequence. -/
def jsSubarray (l : Bytes) (s e : Int) : Bytes :=
  (l.take (jsIndex l.length e)).drop (jsIndex l.length s)

/-- The JS numbers arising in this code: exact multiples of 1/8 (`parseInt`
results, string lengths, and a `parseInt` result divided by 8), represented by
their value times 8. IEEE doubles are exact on this range, so equality of two
such numbers is equality of these representations. -/
structure JsNumber where
  eighths : Int
deriving DecidableEq

/-- The JS expression `n / 8` for an integer `n`. -/
def jsDiv8 (n : Int) : JsNumber := ⟨n⟩

/-- The JS number of a nonnegative integer (e.g. a string length). -/
def jsNumOfNat (n : Nat) : JsNumber := ⟨(n : Int) * 8⟩

/-- The JS values a caller can pass as the `data` parameter of `decrypt`:
a string, a number, `null`, `undefined`, or an object whose `nonce` and
`encrypted` properties are each present (`some`) or absent (`none`). -/
inductive JsVal where
  | str : JsStr → JsVal
  | num : JsNumber → JsVal
  | nullV : JsVal
  | undef : JsVal
  | obj : Option JsStr → Option JsStr → JsVal
deriving DecidableEq

/-- JS `typeof`. Note `typeof null === 'object'`. -/
def jsTypeof : JsVal → JsStr
  | .str _ => "string".data
  | .num _ => "number".data
  | .nullV => "object".data
  | .undef => "undefined".data
  | .obj _ _ => "object".data

/-- JS `String.prototype.split('-')` (no limit argument): split on every
occurrence of the separator, keeping empty pieces; `"".split('-') = [""]`. -/
def splitDash : JsStr → List JsStr
  | [] => [[]]
  | c :: rest =>
      if c = '-' then [] :: splitDash rest
      else
        match splitDash rest with
        | h :: t => (c :: h) :: t
        | [] => [[c]]

/-- Leading decimal digits of a character list. -/
def takeDigits (cs : JsStr) : JsStr := cs.takeWhile (fun c => c.isDigit)

/-- Value of a digit string (most significant first). -/
def digitsToNat (cs : JsStr) : Nat := cs.foldl (fun a c => a * 10 + (c.toNat - 48)) 0

/-- JS `parseInt(s, 10)`: skip leading whitespace, optional sign, then the
longest prefix of decimal digits; `NaN` (here `none`) if there are none. -/
def jsParseInt (s : JsStr) : Option Int :=
  let cs := s.dropWhile (fun c => c = ' ' ∨ c = '\t' ∨ c = '\n' ∨ c = '\r')
  match cs with
  | '-' :: rest =>
      let ds := takeDigits rest
      if ds.isEmpty then none else some (-(digitsToNat ds : Int))
  | '+' :: rest =>
      let ds := takeDigits rest
      if ds.isEmpty then none else some (digitsToNat ds)
  | _ =>
      let ds := takeDigits cs
      if ds.isEmpty then none else some (digitsToNat ds)

/-! ## Hex encoding (Node `Buffer.prototype.toString('hex')` /
`Buffer.from(str, 'hex')`) -/

/-- Lower-case hex digit for a nibble. -/
def hexDigitChar (n : Nat) : Char :=
  if n < 10 then Char.ofNat (48 + n) else Char.ofNat (87 + n)

/-- Two hex characters of one byte. -/
def byteToHex (b : Nat) : List Char := [hexDigitChar (b / 16), hexDigitChar (b % 16)]

/-- `buf.toString('hex')`. -/
def bytesToHex (l : Bytes) : JsStr := (l.map byteToHex).flatten

/-- Value of one hex character (accepting both cases), as Node does. -/
def hexVal (c : Char) : Option Nat :=
  if 48 ≤ c.toNat ∧ c.toNat ≤ 57 then some (c.toNat - 48)
  else if 97 ≤ c.toNat ∧ c.toNat ≤ 102 then some (c.toNat - 87)
  else if 65 ≤ c.toNat ∧ c.toNat ≤ 70 then some (c.toNat - 55)
  else none

/-- `Buffer.from(s, 'hex')`: decode pairs of hex digits, stopping at the first
invalid pair or dangling character (Node's lenient behaviour). -/
def hexToBytes : JsStr → Bytes
  | c1 :: c2 :: rest =>
      match hexVal c1, hexVal c2 with
      | some h, some l => (16 * h + l) :: hexToBytes rest
      | _, _ => []
  | _ => []

theorem hexVal_hexDigitChar {n : Nat} (h : n < 16) : hexVal (hexDigitChar n) = some n := by
  interval_cases n <;> decide

theorem bytesToHex_cons (b : Nat) (l : Bytes) :
    bytesToHex (b :: l) = byteToHex b ++ bytesToHex l := by
  simp [bytesToHex]

theorem hexToBytes_bytesToHex (l : Bytes) (h : ∀ b ∈ l, b < 256) :
    hexToBytes (bytesToHex l) = l := by
  induction l with
  | nil => rfl
  | cons b rest ih =>
      have hb : b < 256 := h b (List.mem_cons_self _ _)
      have hdiv : b / 16 < 16 := Nat.div_lt_of_lt_mul (by omega)
      have hmod : b % 16 < 16 := Nat.mod_lt _ (by omega)
      have hrest : ∀ x ∈ rest, x < 256 := fun x hx => h x (List.mem_cons_of_mem _ hx)
      rw [bytesToHex_cons]
      simp only [byteToHex, List.cons_append, List.nil_append]
      simp only [hexToBytes, hexVal_hexDigitChar hdiv, hexVal_hexDigitChar hmod]
      rw [ih hrest]
      congr 1
      omega

theorem bytesToHex_append (l1 l2 : Bytes) :
    bytesToHex (l1 ++ l2) = bytesToHex l1 ++ bytesToHex l2 := by
  simp [bytesToHex]

theorem length_bytesToHex (l : Bytes) : (bytesToHex l).length = 2 * l.length := by
  induction l with
  | nil => rfl
  | cons b rest ih =>
      rw [bytesToHex_cons]
      simp only [byteToHex, List.length_append, List.length_cons, List.length_nil, ih,
        List.length_cons]
      omega

/-! ## Base64 (Node `Buffer.prototype.toString('base64')` /
`Buffer.from(str, 'base64')`) -/

/-- Character of one base64 sextet in the standard alphabet. -/
def b64Char (n : Nat) : Char :=
  if n < 26 then Char.ofNat (65 + n)
  else if n < 52 then Char.ofNat (97 + (n - 26))
  else if n < 62 then Char.ofNat (48 + (n - 52))
  else if n = 62 then '+'
  else '/'

/-- Value of one base64 character. -/
def b64Val (c : Char) : Option Nat :=
  if 65 ≤ c.toNat ∧ c.toNat ≤ 90 then some (c.toNat - 65)
  else if 97 ≤ c.toNat ∧ c.toNat ≤ 122 then some (c.toNat - 71)
  else if 48 ≤ c.toNat ∧ c.toNat ≤ 57 then some (c.toNat + 4)
  else if c = '+' then some 62
  else if c = '/' then some 63
  else none

/-- `buf.toString('base64')`: encode three bytes into four characters, padding
short final groups with `=`. -/
def b64EncodeBytes : Bytes → JsStr
  | [] => []
  | [a] => [b64Char (a / 4), b64Char (a % 4 * 16), '=', '=']
  | [a, b] => [b64Char (a / 4), b64Char (a % 4 * 16 + b / 16), b64Char (b % 16 * 4), '=']
  | a :: b :: c :: rest =>
      b64Char (a / 4) :: b64Char (a % 4 * 16 + b / 16) :: b64Char (b % 16 * 4 + c / 64) ::
        b64Char (c % 64) :: b64EncodeBytes rest

/-- `Buffer.from(s, 'base64')`: decode groups of four characters, treating `=`
as padding and stopping at invalid input (Node's lenient behaviour). -/
def b64DecodeChars : JsStr → Bytes
  | c1 :: c2 :: c3 :: c4 :: rest =>
      match b64Val c1, b64Val c2 with
      | some s1, some s2 =>
          if c3 = '=' then [s1 * 4 + s2 / 16]
          else
            match b64Val c3 with
            | some s3 =>
                if c4 = '=' then [s1 * 4 + s2 / 16, s2 % 16 * 16 + s3 / 4]
                else
                  match b64Val c4 with
                  | some s4 =>
                      (s1 * 4 + s2 / 16) :: (s2 % 16 * 16 + s3 / 4) ::
                        (s3 % 4 * 64 + s4) :: b64DecodeChars rest
                  | none => []
            | none => []
      | none, _ => []
      | _, none => []
  | _ => []

theorem b64Val_b64Char {n : Nat} (h : n < 64) : b64Val (b64Char n) = some n := by
  interval_cases n <;> decide

theorem b64Char_ne_pad {n : Nat} (h : n < 64) : b64Char n ≠ '=' := by
  interval_cases n <;> decide

theorem b64_roundtrip (l : Bytes) (h : ∀ b ∈ l, b < 256) :
    b64DecodeChars (b64EncodeBytes l) = l := by
  induction l using b64EncodeBytes.induct with
  | case1 => rfl
  | case2 a =>
      have ha : a < 256 := h a (by simp)
      have h1 : a / 4 < 64 := by omega
      have h2 : a % 4 * 16 < 64 := by omega
      simp only [b64EncodeBytes, b64DecodeChars, b64Val_b64Char h1, b64Val_b64Char h2,
        if_true]
      congr 1
      omega
  | case3 a b =>
      have ha : a < 256 := h a (by simp)
      have hb : b < 256 := h b (by simp)
      have h1 : a / 4 < 64 := by omega
      have h2 : a % 4 * 16 + b / 16 < 64 := by omega
      have h3 : b % 16 * 4 < 64 := by omega
      simp only [b64EncodeBytes, b64DecodeChars, b64Val_b64Char h1, b64Val_b64Char h2,
        if_neg (b64Char_ne_pad h3), b64Val_b64Char h3, if_true]
      congr 1
      · omega
      · congr 1
        omega
  | case4 a b c rest ih =>
      have ha : a < 256 := h a (by simp)
      have hb : b < 256 := h b (by simp)
      have hc : c < 256 := h c (by simp)
      have hrest : ∀ x ∈ rest, x < 256 := fun x hx => h x (by simp [hx])
      have h1 : a / 4 < 64 := by omega
      have h2 : a % 4 * 16 + b / 16 < 64 := by omega
      have h3 : b % 16 * 4 + c / 64 < 64 := by omega
      have h4 : c % 64 < 64 := by omega
      simp only [b64EncodeBytes, b64DecodeChars, b64Val_b64Char h1, b64Val_b64Char h2,
        if_neg (b64Char_ne_pad h3), b64Val_b64Char h3, if_neg (b64Char_ne_pad h4),
        b64Val_b64Char h4]
      rw [ih hrest]
      congr 1
      · omega
      · congr 1
        · omega
        · congr 1
          omega

/-! ## `src/lib/aes_encryption.js` -/

/-- The errors the library throws, named after the spec's taxonomy.
`invalidAesAlgorithm` is the `'invalid aes algorithm'` throw
(`InvalidAlgorithmError`); `invalidKeyLength` the
`'invalid key length, ...'` throw (`InvalidKeyLengthError`);
`dataParamShouldBeObject` the `'error: data param should be object'` throw
(`InvalidInputError`); `typeError` a JS `TypeError` raised by the runtime
(e.g. `Buffer.from(undefined, 'hex')` or a property access on `null`);
`providerError` any failure inside the platform cipher provider
(unknown cipher, bad padding, or tag verification failure). -/
inductive CrypsiError where
  | invalidAesAlgorithm : CrypsiError
  | invalidKeyLength : Option JsNumber → CrypsiError
  | dataParamShouldBeObject : CrypsiError
  | typeError : CrypsiError
  | providerError : CrypsiError
deriving DecidableEq

/-- Source constant `DEFAULT_AUTH_TAG_LENGTH = 16`. -/
def DEFAULT_AUTH_TAG_LENGTH : Nat := 16

/-- Source constant `SUPPORTED_AUTH_TAG_MODES = ['gcm', 'ccm', 'ocb',
'chacha20-poly1305']`. -/
def SUPPORTED_AUTH_TAG_MODES : List JsStr :=
  ["gcm".data, "ccm".data, "ocb".data, "chacha20-poly1305".data]

/-- The object returned by `getMetaFromAlgorithm`. `expectedKeyLen` is the JS
number `parseInt(algSplited[1], 10) / 8`; `none` models `NaN`. -/
structure AlgMeta where
  expectedKeyLen : Option JsNumber
  mode : JsStr
  ivLen : Nat
deriving DecidableEq

/-- Source `getMetaFromAlgorithm`: split the identifier on `'-'`, require at
least 3 segments, read the key length from segment 1 and the mode from
segment 2; `ivLen` is 16 for `cbc` and 12 otherwise. -/
def getMetaFromAlgorithm (alg : JsStr) : Except CrypsiError AlgMeta :=
  let algSplited := splitDash alg
  if algSplited.length < 3 then .error .invalidAesAlgorithm
  else
    let keyLenInt := jsParseInt (algSplited.getD 1 [])
    let ivLen := if algSplited.getD 2 [] = "cbc".data then 16 else 12
    .ok { expectedKeyLen := keyLenInt.map jsDiv8,
          mode := algSplited.getD 2 [], ivLen := ivLen }

/-- JS strict equality `key.length === metaAlg.expectedKeyLen`: a comparison
with `NaN` (`none`) is always false. -/
def keyLenEq (n : Nat) : Option JsNumber → Bool
  | none => false
  | some q => jsNumOfNat n == q

/-- The external platform cipher (`crypto.createCipheriv` /
`createDecipheriv` with `authTagLength: 16`), as an abstract collaborator:
`enc key iv data` is the full ciphertext (`update` plus `final`),
`tag key iv data` the authentication tag read by `getAuthTag`,
`dec key iv ct` decryption without a tag, and `decAuth key iv ct tag`
decryption after `setAuthTag(tag)` (failing on tag mismatch). -/
structure CipherProvider where
  enc : Bytes → Bytes → Bytes → Bytes
  tag : Bytes → Bytes → Bytes → Bytes
  dec : Bytes → Bytes → Bytes → Except CrypsiError Bytes
  decAuth : Bytes → Bytes → Bytes → Bytes → Except CrypsiError Bytes

/-- The object returned by `encrypt`: `{ nonce, encrypted }`, both hex
strings. -/
structure EncryptionResult where
  nonce : JsStr
  encrypted : JsStr
deriving DecidableEq

/-- Source `encrypt`. The random `keyUtil.generateRandomIV(metaAlg.ivLen)`
(its module is not in `src`) is modelled from the spec — "Generate a
cryptographically random nonce of `ivLengthBytes` bytes", returned in hex — by
taking the drawn iv bytes as the explicit argument `ivBytes`. The plaintext
`data` is the byte sequence the cipher consumes (`cipher.update(data,
'utf8', ...)`). In the source, the auth branch appends
`Buffer.from(tagHex)` to a string and calls `.toString('hex')` on the result;
both coercions collapse to appending the tag's hex to the ciphertext's hex. -/
def encrypt (P : CipherProvider) (ivBytes : Bytes) (alg : JsStr) (key : Bytes)
    (data : Bytes) : Except CrypsiError EncryptionResult := do
  let metaAlg ← getMetaFromAlgorithm alg
  if ¬ keyLenEq key.length metaAlg.expectedKeyLen then
    throw (.invalidKeyLength metaAlg.expectedKeyLen)
  else
    let nonce := bytesToHex ivBytes
    let nonceBuf := hexToBytes nonce
    let keyBuf := key
    let ctHex := bytesToHex (P.enc keyBuf nonceBuf data)
    let encrypted :=
      if SUPPORTED_AUTH_TAG_MODES.contains metaAlg.mode then
        ctHex ++ bytesToHex (P.tag keyBuf nonceBuf data)
      else ctHex
    return { nonce := nonce, encrypted := encrypted }

/-- Source `decrypt`. The `typeof data !== 'object'` guard comes first; then
algorithm resolution and the key-length check; then `data.nonce` and
`data.encrypted` are decoded from hex (a missing property gives `undefined`,
and `Buffer.from(undefined, 'hex')` — like a property access on `null` —
raises a `TypeError`); for an authenticated mode the tag is
`buf.subarray(buf.length - 16, buf.length)` and the ciphertext
`buf.subarray(0, buf.length - 16)`, otherwise the whole buffer is the
ciphertext. -/
def decrypt (P : CipherProvider) (alg : JsStr) (key : Bytes) (data : JsVal) :
    Except CrypsiError Bytes := do
  if ¬ jsTypeof data = "object".data then
    throw .dataParamShouldBeObject
  else
    let metaAlg ← getMetaFromAlgorithm alg
    if ¬ keyLenEq key.length metaAlg.expectedKeyLen then
      throw (.invalidKeyLength metaAlg.expectedKeyLen)
    else
      match data with
      | .obj (some dataNonce) (some dataEncrypted) =>
          let nonceBuf := hexToBytes dataNonce
          let keyBuf := key
          let buf := hexToBytes dataEncrypted
          if SUPPORTED_AUTH_TAG_MODES.contains metaAlg.mode then
            let sFrom : Int := (buf.length : Int) - (DEFAULT_AUTH_TAG_LENGTH : Int)
            let authTag := jsSubarray buf sFrom (buf.length : Int)
            let encryptedText := jsSubarray buf 0 sFrom
            P.decAuth keyBuf nonceBuf encryptedText authTag
          else
            P.dec keyBuf nonceBuf buf
      | _ => throw .typeError

/-- Modelled from the spec: the algorithm-identifier constants of
`lib/alg.js` (not in `src`), the fixed vocabulary
`aes-{128,192,256}-{cbc,gcm,ccm,ocb}` bound by the twelve wrapper pairs. -/
def supportedAlgorithms : List JsStr :=
  ["aes-128-cbc".data, "aes-192-cbc".data, "aes-256-cbc".data,
   "aes-128-gcm".data, "aes-192-gcm".data, "aes-256-gcm".data,
   "aes-128-ccm".data, "aes-192-ccm".data, "aes-256-ccm".data,
   "aes-128-ocb".data, "aes-192-ocb".data, "aes-256-ocb".data]

/-- A cipher provider that behaves like a real one: it emits bytes, its tag
has the configured 16-byte length, and decryption inverts encryption (with a
matching tag for the authenticated entry point). -/
structure ProviderOk (P : CipherProvider) : Prop where
  enc_bytes : ∀ k iv m, (∀ b ∈ m, b < 256) → ∀ b ∈ P.enc k iv m, b < 256
  tag_bytes : ∀ k iv m, ∀ b ∈ P.tag k iv m, b < 256
  tag_len : ∀ k iv m, (P.tag k iv m).length = DEFAULT_AUTH_TAG_LENGTH
  dec_enc : ∀ k iv m, (∀ b ∈ m, b < 256) → P.dec k iv (P.enc k iv m) = .ok m
  decAuth_enc : ∀ k iv m, (∀ b ∈ m, b < 256) →
    P.decAuth k iv (P.enc k iv m) (P.tag k iv m) = .ok m

/-- A concrete provider used to instantiate theorems: the identity cipher
with an all-zero tag. -/
def idProvider : CipherProvider where
  enc := fun _ _ m => m
  tag := fun _ _ _ => List.replicate 16 0
  dec := fun _ _ c => .ok c
  decAuth := fun _ _ c _ => .ok c

theorem idProvider_ok : ProviderOk idProvider := by
  constructor <;> intros <;> simp_all [idProvider, DEFAULT_AUTH_TAG_LENGTH]

/-! ## `src/lib/rsa.js` -/

/-- Modelled from the spec: the key-size constant `KEY_SIZE_1KB` of
`lib/key_util.js` (not in `src`); the name denotes a 1024-bit modulus. -/
def KEY_SIZE_1KB : Nat := 1024

/-- Modelled from the spec: the key-size constant `KEY_SIZE_2KB` of
`lib/key_util.js` (not in `src`); the name denotes a 2048-bit modulus, the
spec's "fixed default modulus length (2048)". -/
def KEY_SIZE_2KB : Nat := 2048

/-- The guard of `generateRSAKeyPair`:
`keySize !== keyUtil.KEY_SIZE_1KB || keySize !== keyUtil.KEY_SIZE_2KB`. -/
def keySizeGuard (keySize : Nat) : Bool :=
  keySize ≠ KEY_SIZE_1KB ∨ keySize ≠ KEY_SIZE_2KB

/-- The `modulusLength` option `generateRSAKeyPair` passes to the platform
key-generation provider: `newKeySize` starts out `undefined` (`none`) and is
set to `KEY_SIZE_2KB` when the guard holds. -/
def modulusLengthOf (keySize : Nat) : Option Nat :=
  if keySizeGuard keySize then some KEY_SIZE_2KB else none

/-- `Buffer.from(string)` on the ASCII text handled here: UTF-8 code units,
which for characters below 128 are the code points themselves. -/
def charsToBytes (s : JsStr) : Bytes := s.map Char.toNat

/-- `buf.toString()` (UTF-8 decode) on the ASCII text handled here. -/
def bytesToChars (b : Bytes) : JsStr := b.map Char.ofNat

/-- Modelled from the spec: `bufferToString` of `lib/common.js` (not in
`src`), which yields the textual content of a string-or-`Buffer` argument; on
a string it is the identity. -/
def bufferToString (data : JsStr) : JsStr := data

/-- Source `loadPrivateKey`: `createPrivateKey(data).export({type: 'pkcs8',
format: 'pem'})`. The platform parse-and-re-encode step is the external
collaborator `canon`. -/
def loadPrivateKey (canon : JsStr → JsStr) (data : JsStr) : JsStr := canon data

/-- Source `loadKeyFromBase64`: decode the base64 text and feed the result to
the given loader. -/
def loadKeyFromBase64 (loadFn : JsStr → JsStr) (data : JsStr) : JsStr :=
  loadFn (bytesToChars (b64DecodeChars (bufferToString data)))

/-- Source `loadPrivateKeyFromBase64 = loadKeyFromBase64(loadPrivateKey, ·)`. -/
def loadPrivateKeyFromBase64 (canon : JsStr → JsStr) (data : JsStr) : JsStr :=
  loadKeyFromBase64 (loadPrivateKey canon) data

/-- Source `loadPrivateKeyAsBase64`:
`Buffer.from(loadPrivateKey(data)).toString('base64')`. -/
def loadPrivateKeyAsBase64 (canon : JsStr → JsStr) (data : JsStr) : JsStr :=
  b64EncodeBytes (charsToBytes (loadPrivateKey canon data))

theorem bytesToChars_charsToBytes (s : JsStr) : bytesToChars (charsToBytes s) = s := by
  induction s with
  | nil => rfl
  | cons c cs ih => simp [bytesToChars, charsToBytes, Char.ofNat_toNat] at ih ⊢; exact ih

/-! ## Unfolding lemmas -/

theorem exceptBind_ok {ε α β : Type} (a : α) (f : α → Except ε β) :
    (Except.ok a : Except ε α) >>= f = f a := rfl

theorem exceptBind_error {ε α β : Type} (e : ε) (f : α → Except ε β) :
    (Except.error e : Except ε α) >>= f = Except.error e := rfl

theorem jsIndex_ofNat (len i : Nat) : jsIndex len (i : Int) = min i len := by
  simp [jsIndex]

theorem jsIndex_sub (len n : Nat) (h : n ≤ len) :
    jsIndex len ((len : Int) - (n : Int)) = len - n := by
  simp only [jsIndex]
  rw [if_neg (by omega)]
  omega

theorem jsSubarray_drop (l : Bytes) (n : Nat) (h : n ≤ l.length) :
    jsSubarray l ((l.length : Int) - (n : Int)) (l.length : Int) = l.drop (l.length - n) := by
  simp only [jsSubarray, jsIndex_sub _ _ h, jsIndex_ofNat]
  simp

theorem jsSubarray_take (l : Bytes) (n : Nat) (h : n ≤ l.length) :
    jsSubarray l 0 ((l.length : Int) - (n : Int)) = l.take (l.length - n) := by
  have h0 : jsIndex l.length 0 = 0 := by simp [jsIndex]
  simp only [jsSubarray, jsIndex_sub _ _ h, h0, List.drop_zero]

/-- What `decrypt` does once the guards have passed and both properties are
present: hex-decode, split off the tag for an authenticated mode, and call the
platform decipher. -/
theorem decrypt_obj_eq (P : CipherProvider) (alg : JsStr) (key : Bytes)
    (nS encS : JsStr) (meta : AlgMeta)
    (hmeta : getMetaFromAlgorithm alg = .ok meta)
    (hkey : keyLenEq key.length meta.expectedKeyLen = true) :
    decrypt P alg key (.obj (some nS) (some encS)) =
      if SUPPORTED_AUTH_TAG_MODES.contains meta.mode then
        P.decAuth key (hexToBytes nS)
          (jsSubarray (hexToBytes encS) 0
            (((hexToBytes encS).length : Int) - (DEFAULT_AUTH_TAG_LENGTH : Int)))
          (jsSubarray (hexToBytes encS)
            (((hexToBytes encS).length : Int) - (DEFAULT_AUTH_TAG_LENGTH : Int))
            ((hexToBytes encS).length : Int))
      else P.dec key (hexToBytes nS) (hexToBytes encS) := by
  unfold decrypt
  rw [hmeta, exceptBind_ok]
  simp [jsTypeof, hkey]

/-- What `encrypt` does once the guards have passed: encipher, hex-encode, and
append the tag's hex for an authenticated mode. -/
theorem encrypt_eq (P : CipherProvider) (ivBytes : Bytes) (alg : JsStr)
    (key : Bytes) (data : Bytes) (meta : AlgMeta)
    (hmeta : getMetaFromAlgorithm alg = .ok meta)
    (hkey : keyLenEq key.length meta.expectedKeyLen = true) :
    encrypt P ivBytes alg key data =
      .ok { nonce := bytesToHex ivBytes,
            encrypted :=
              if SUPPORTED_AUTH_TAG_MODES.contains meta.mode then
                bytesToHex (P.enc key (hexToBytes (bytesToHex ivBytes)) data) ++
                  bytesToHex (P.tag key (hexToBytes (bytesToHex ivBytes)) data)
              else bytesToHex (P.enc key (hexToBytes (bytesToHex ivBytes)) data) } := by
  unfold encrypt
  rw [hmeta, exceptBind_ok]
  simp only [hkey, Bool.true_eq_false, if_false, not_true_eq_false, if_neg]
  split <;> rfl

/-! ## Claims -/

/-- C5: for every identifier with at least 3 dash-separated segments,
`getMetaFromAlgorithm` returns `ivLen = 16` when the third segment is `cbc`
and `12` otherwise, `mode` equal to the third segment, and `expectedKeyLen`
equal to the integer parsed from the second segment divided by 8; in
particular `"aes-128-cbc"` yields `{expectedKeyLen := 16, ivLen := 16,
mode := cbc}`. -/
theorem resolve_algorithm_spec_fields (alg : JsStr)
    (h : 3 ≤ (splitDash alg).length) :
    getMetaFromAlgorithm alg =
      .ok { expectedKeyLen := (jsParseInt ((splitDash alg).getD 1 [])).map jsDiv8,
            mode := (splitDash alg).getD 2 [],
            ivLen := if (splitDash alg).getD 2 [] = "cbc".data then 16 else 12 } ∧
    getMetaFromAlgorithm "aes-128-cbc".data =
      .ok { expectedKeyLen := some (jsNumOfNat 16), mode := "cbc".data, ivLen := 16 } := by
  constructor
  · unfold getMetaFromAlgorithm
    rw [if_neg (by omega)]
  · decide

/-- Witness for C5 at the identifier `"aes-256-gcm"`. -/
theorem resolve_algorithm_spec_fields_witness :
    getMetaFromAlgorithm "aes-256-gcm".data =
      .ok { expectedKeyLen := (jsParseInt ((splitDash "aes-256-gcm".data).getD 1 [])).map jsDiv8,
            mode := (splitDash "aes-256-gcm".data).getD 2 [],
            ivLen := if (splitDash "aes-256-gcm".data).getD 2 [] = "cbc".data
              then 16 else 12 } :=
  (resolve_algorithm_spec_fields "aes-256-gcm".data (by decide)).1

/-- C8: an identifier with fewer than 3 dash-separated segments is rejected
with `InvalidAlgorithmError` by `getMetaFromAlgorithm`, hence by `encrypt`
and by `decrypt` (on any `data` argument that passes the preceding object
check); in particular `"aes256gcm"` is rejected. -/
theorem invalid_algorithm_rejected (P : CipherProvider) (ivBytes : Bytes)
    (alg : JsStr) (h : (splitDash alg).length < 3) (key : Bytes) (data : Bytes) :
    getMetaFromAlgorithm alg = .error .invalidAesAlgorithm ∧
    encrypt P ivBytes alg key data = .error .invalidAesAlgorithm ∧
    (∀ d : JsVal, jsTypeof d = "object".data →
      decrypt P alg key d = .error .invalidAesAlgorithm) ∧
    getMetaFromAlgorithm "aes256gcm".data = .error .invalidAesAlgorithm := by
  have hmeta : getMetaFromAlgorithm alg = .error .invalidAesAlgorithm := by
    unfold getMetaFromAlgorithm
    rw [if_pos h]
  refine ⟨hmeta, ?_, ?_, by decide⟩
  · unfold encrypt
    rw [hmeta, exceptBind_error]
  · intro d hd
    unfold decrypt
    rw [if_neg (by simp [hd]), hmeta, exceptBind_error]

/-- Witness for C8 at the identifier `"aes256gcm"`. -/
theorem invalid_algorithm_rejected_witness :
    encrypt idProvider [] "aes256gcm".data (List.replicate 32 97) [104] =
      .error .invalidAesAlgorithm ∧
    decrypt idProvider "aes256gcm".data (List.replicate 32 97) (.obj none none) =
      .error .invalidAesAlgorithm :=
  have h := invalid_algorithm_rejected idProvider [] "aes256gcm".data (by decide)
    (List.replicate 32 97) [104]
  ⟨h.2.1, h.2.2.1 (.obj none none) (by decide)⟩

/-- C4: when the key's length differs from the resolved `expectedKeyLen`
(JS strict comparison, hence also when that field is `NaN`), `encrypt` fails
with `InvalidKeyLengthError`, and so does `decrypt` for every `data` argument
that passes the preceding object check; neither touches the cipher provider
(the result is the same for every provider). -/
theorem wrong_key_length_always_rejected (P : CipherProvider) (ivBytes : Bytes)
    (alg : JsStr) (key : Bytes) (data : Bytes) (meta : AlgMeta)
    (hmeta : getMetaFromAlgorithm alg = .ok meta)
    (hkey : keyLenEq key.length meta.expectedKeyLen = false) :
    encrypt P ivBytes alg key data = .error (.invalidKeyLength meta.expectedKeyLen) ∧
    (∀ d : JsVal, jsTypeof d = "object".data →
      decrypt P alg key d = .error (.invalidKeyLength meta.expectedKeyLen)) := by
  constructor
  · unfold encrypt
    rw [hmeta, exceptBind_ok]
    simp only [hkey, Bool.false_eq_true, not_false_eq_true, if_pos]
    rfl
  · intro d hd
    unfold decrypt
    rw [if_neg (by simp [hd]), hmeta, exceptBind_ok]
    simp only [hkey, Bool.false_eq_true, not_false_eq_true, if_pos]
    rfl

/-- Witness for C4: a 15-byte key against `"aes-128-cbc"` (expected 16). -/
theorem wrong_key_length_always_rejected_witness :
    encrypt idProvider [] "aes-128-cbc".data (List.replicate 15 97) [104] =
      .error (.invalidKeyLength (some (jsNumOfNat 16))) ∧
    decrypt idProvider "aes-128-cbc".data (List.replicate 15 97)
      (.obj (some "00".data) (some "6869".data)) =
      .error (.invalidKeyLength (some (jsNumOfNat 16))) :=
  have h := wrong_key_length_always_rejected idProvider [] "aes-128-cbc".data
    (List.replicate 15 97) [104] { expectedKeyLen := some (jsNumOfNat 16), mode := "cbc".data, ivLen := 16 }
    (by decide) (by decide)
  ⟨h.1, h.2 (.obj (some "00".data) (some "6869".data)) (by decide)⟩

/-- C6 counterexample: `decrypt` called with an object missing both `nonce`
and `encrypted` does not fail with `InvalidInputError` (the
`'error: data param should be object'` throw); it passes the `typeof` guard
and later hits a `TypeError` from `Buffer.from(undefined, 'hex')`. -/
theorem decrypt_missing_fields_not_invalid_input :
    decrypt idProvider "aes-128-cbc".data (List.replicate 16 97) (.obj none none) =
      .error .typeError ∧
    CrypsiError.typeError ≠ CrypsiError.dataParamShouldBeObject := by
  constructor
  · decide
  · decide

/-- C6 amended: `decrypt` fails with `InvalidInputError` when — and only at
the guard for when — the `data` argument is not of JS type `object` (e.g. a
string); the check happens before any other processing (the algorithm need
not even be valid). An object lacking the fields, or `null`, passes the
guard. -/
theorem non_object_data_rejected (P : CipherProvider) (alg : JsStr) (key : Bytes)
    (d : JsVal) (h : ¬ jsTypeof d = "object".data) :
    decrypt P alg key d = .error .dataParamShouldBeObject := by
  unfold decrypt
  rw [if_pos (by simp [h])]
  rfl

/-- Witness for the amended C6: a string `data` argument is rejected even
with a malformed algorithm identifier. -/
theorem non_object_data_rejected_witness :
    decrypt idProvider "zzz".data [] (.str "nonce".data) =
      .error .dataParamShouldBeObject :=
  non_object_data_rejected idProvider "zzz".data [] (.str "nonce".data) (by decide)

/-- C7 (evaluation at the failing input): requesting the supported constant
`KEY_SIZE_1KB` still yields modulus length 2048, because the guard
`keySize !== KEY_SIZE_1KB || keySize !== KEY_SIZE_2KB` also holds there; the
requested 1024 is never passed to the provider. -/
theorem modulus_length_ignores_requested_1kb :
    modulusLengthOf KEY_SIZE_1KB = some KEY_SIZE_2KB ∧
    KEY_SIZE_1KB = 1024 ∧ KEY_SIZE_2KB = 2048 ∧ KEY_SIZE_1KB ≠ KEY_SIZE_2KB := by
  refine ⟨by decide, rfl, rfl, by decide⟩

/-- C1: for every supported algorithm identifier, every key of the expected
length, and every plaintext, decrypting the result of `encrypt` (with any
correctly-behaving cipher provider) returns the original plaintext. -/
theorem decrypt_encrypt_roundtrip (P : CipherProvider) (hP : ProviderOk P)
    (alg : JsStr) (halg : alg ∈ supportedAlgorithms)
    (key ivBytes data : Bytes) (meta : AlgMeta)
    (hmeta : getMetaFromAlgorithm alg = .ok meta)
    (hkey : keyLenEq key.length meta.expectedKeyLen = true)
    (hiv : ∀ b ∈ ivBytes, b < 256) (hdata : ∀ b ∈ data, b < 256)
    (res : EncryptionResult)
    (henc : encrypt P ivBytes alg key data = .ok res) :
    decrypt P alg key (.obj (some res.nonce) (some res.encrypted)) = .ok data := by
  rw [encrypt_eq P ivBytes alg key data meta hmeta hkey] at henc
  obtain rfl := Except.ok.inj henc
  dsimp only
  rw [decrypt_obj_eq P alg key _ _ meta hmeta hkey]
  rw [hexToBytes_bytesToHex ivBytes hiv]
  by_cases hauth : SUPPORTED_AUTH_TAG_MODES.contains meta.mode = true
  · rw [if_pos hauth, if_pos hauth]
    rw [← bytesToHex_append]
    have henc_b : ∀ b ∈ P.enc key ivBytes data ++ P.tag key ivBytes data, b < 256 := by
      intro b hb
      rcases List.mem_append.mp hb with hb | hb
      · exact hP.enc_bytes key ivBytes data hdata b hb
      · exact hP.tag_bytes key ivBytes data b hb
    rw [hexToBytes_bytesToHex _ henc_b]
    have hlen16 : DEFAULT_AUTH_TAG_LENGTH ≤
        (P.enc key ivBytes data ++ P.tag key ivBytes data).length := by
      rw [List.length_append, hP.tag_len key ivBytes data]
      omega
    rw [jsSubarray_take _ _ hlen16, jsSubarray_drop _ _ hlen16]
    have hsplit : (P.enc key ivBytes data ++ P.tag key ivBytes data).length -
        DEFAULT_AUTH_TAG_LENGTH = (P.enc key ivBytes data).length := by
      rw [List.length_append, hP.tag_len key ivBytes data]
      omega
    rw [hsplit, List.take_left, List.drop_left]
    exact hP.decAuth_enc key ivBytes data hdata
  · rw [if_neg hauth, if_neg hauth]
    rw [hexToBytes_bytesToHex _ (hP.enc_bytes key ivBytes data hdata)]
    exact hP.dec_enc key ivBytes data hdata

/-- Witness for C1: `aes-128-cbc` with the identity provider, a 16-byte key,
an all-zero iv, and the plaintext bytes of `"hi"`. -/
theorem decrypt_encrypt_roundtrip_witness :
    decrypt idProvider "aes-128-cbc".data (List.replicate 16 97)
      (.obj (some "00000000000000000000000000000000".data) (some "6869".data)) =
      .ok [104, 105] :=
  decrypt_encrypt_roundtrip idProvider idProvider_ok "aes-128-cbc".data (by decide)
    (List.replicate 16 97) (List.replicate 16 0) [104, 105]
    { expectedKeyLen := some (jsNumOfNat 16), mode := "cbc".data, ivLen := 16 }
    (by decide) (by decide) (by decide) (by decide)
    { nonce := "00000000000000000000000000000000".data, encrypted := "6869".data }
    (by decide)

/-- C2: for every successful encryption under a mode in the authenticated set
(gcm, ccm, ocb, chacha20-poly1305), the `encrypted` field is the ciphertext's
hex immediately followed by the hex of the 16-byte authentication tag
(ciphertext-then-tag order); for cbc it is the ciphertext hex alone. -/
theorem encrypted_is_ciphertext_then_tag (P : CipherProvider) (hP : ProviderOk P)
    (ivBytes : Bytes) (alg : JsStr) (key data : Bytes) (meta : AlgMeta)
    (hmeta : getMetaFromAlgorithm alg = .ok meta)
    (hkey : keyLenEq key.length meta.expectedKeyLen = true)
    (res : EncryptionResult) (henc : encrypt P ivBytes alg key data = .ok res) :
    (SUPPORTED_AUTH_TAG_MODES.contains meta.mode = true →
      res.encrypted =
        bytesToHex (P.enc key (hexToBytes (bytesToHex ivBytes)) data) ++
          bytesToHex (P.tag key (hexToBytes (bytesToHex ivBytes)) data) ∧
      (P.tag key (hexToBytes (bytesToHex ivBytes)) data).length = 16) ∧
    (meta.mode = "cbc".data →
      res.encrypted = bytesToHex (P.enc key (hexToBytes (bytesToHex ivBytes)) data)) := by
  rw [encrypt_eq P ivBytes alg key data meta hmeta hkey] at henc
  obtain rfl := Except.ok.inj henc
  dsimp only
  constructor
  · intro hauth
    rw [if_pos hauth]
    exact ⟨rfl, hP.tag_len key (hexToBytes (bytesToHex ivBytes)) data⟩
  · intro hcbc
    rw [if_neg (by rw [hcbc]; decide)]

/-- Witness for C2: `aes-256-gcm` with the identity provider. -/
theorem encrypted_is_ciphertext_then_tag_witness :
    (SUPPORTED_AUTH_TAG_MODES.contains ("gcm".data) = true →
      ("6869".data ++ bytesToHex (List.replicate 16 0)) =
        bytesToHex (idProvider.enc (List.replicate 32 97)
          (hexToBytes (bytesToHex (List.replicate 12 0))) [104, 105]) ++
          bytesToHex (idProvider.tag (List.replicate 32 97)
            (hexToBytes (bytesToHex (List.replicate 12 0))) [104, 105]) ∧
      (idProvider.tag (List.replicate 32 97)
        (hexToBytes (bytesToHex (List.replicate 12 0))) [104, 105]).length = 16) ∧
    ("gcm".data = "cbc".data →
      ("6869".data ++ bytesToHex (List.replicate 16 0)) =
        bytesToHex (idProvider.enc (List.replicate 32 97)
          (hexToBytes (bytesToHex (List.replicate 12 0))) [104, 105])) :=
  encrypted_is_ciphertext_then_tag idProvider idProvider_ok (List.replicate 12 0)
    "aes-256-gcm".data (List.replicate 32 97) [104, 105]
    { expectedKeyLen := some (jsNumOfNat 32), mode := "gcm".data, ivLen := 12 }
    (by decide) (by decide)
    { nonce := bytesToHex (List.replicate 12 0),
      encrypted := "6869".data ++ bytesToHex (List.replicate 16 0) }
    (by decide)

/-- C3: under an authenticated mode (and provided the decoded buffer has at
least the 16 bytes the tag needs), `decrypt` feeds the platform decipher the
decoded buffer minus its last 16 bytes as ciphertext and those last 16 bytes
as the tag; under a non-authenticated mode it feeds the whole decoded
buffer. -/
theorem decrypt_splits_trailing_tag (P : CipherProvider) (alg : JsStr)
    (key : Bytes) (nS encS : JsStr) (meta : AlgMeta)
    (hmeta : getMetaFromAlgorithm alg = .ok meta)
    (hkey : keyLenEq key.length meta.expectedKeyLen = true) :
    (SUPPORTED_AUTH_TAG_MODES.contains meta.mode = true →
      DEFAULT_AUTH_TAG_LENGTH ≤ (hexToBytes encS).length →
      decrypt P alg key (.obj (some nS) (some encS)) =
        P.decAuth key (hexToBytes nS)
          ((hexToBytes encS).take ((hexToBytes encS).length - DEFAULT_AUTH_TAG_LENGTH))
          ((hexToBytes encS).drop ((hexToBytes encS).length - DEFAULT_AUTH_TAG_LENGTH))) ∧
    (SUPPORTED_AUTH_TAG_MODES.contains meta.mode = false →
      decrypt P alg key (.obj (some nS) (some encS)) =
        P.dec key (hexToBytes nS) (hexToBytes encS)) := by
  constructor
  · intro hauth hlen
    rw [decrypt_obj_eq P alg key nS encS meta hmeta hkey, if_pos hauth]
    rw [jsSubarray_take _ _ hlen, jsSubarray_drop _ _ hlen]
  · intro hauth
    rw [decrypt_obj_eq P alg key nS encS meta hmeta hkey,
      if_neg (by rw [hauth]; exact Bool.false_ne_true)]

/-- Witness for C3: `aes-128-gcm` on an 18-byte decoded buffer. -/
theorem decrypt_splits_trailing_tag_witness :
    decrypt idProvider "aes-128-gcm".data (List.replicate 16 97)
      (.obj (some "0b0c".data) (some (bytesToHex (List.replicate 18 5)))) =
      idProvider.decAuth (List.replicate 16 97) (hexToBytes "0b0c".data)
        ((hexToBytes (bytesToHex (List.replicate 18 5))).take
          ((hexToBytes (bytesToHex (List.replicate 18 5))).length - DEFAULT_AUTH_TAG_LENGTH))
        ((hexToBytes (bytesToHex (List.replicate 18 5))).drop
          ((hexToBytes (bytesToHex (List.replicate 18 5))).length - DEFAULT_AUTH_TAG_LENGTH)) :=
  (decrypt_splits_trailing_tag idProvider "aes-128-gcm".data (List.replicate 16 97)
    "0b0c".data (bytesToHex (List.replicate 18 5))
    { expectedKeyLen := some (jsNumOfNat 16), mode := "gcm".data, ivLen := 12 }
    (by decide) (by decide)).1 (by decide) (by decide)

/-- C9: loading a private key from the base64 produced by
`loadPrivateKeyAsBase64` is a no-op on an already-canonical (ASCII) PEM
private key: the canonicalization step `canon` (the platform's
`createPrivateKey` + PKCS8/PEM export) fixes `p`, and the base64 encode /
decode round-trips. -/
theorem private_key_base64_roundtrip (canon : JsStr → JsStr) (p : JsStr)
    (hcanon : loadPrivateKey canon p = p) (hascii : ∀ c ∈ p, c.toNat < 128) :
    loadPrivateKeyFromBase64 canon (loadPrivateKeyAsBase64 canon p) = p := by
  unfold loadPrivateKeyFromBase64 loadPrivateKeyAsBase64 loadKeyFromBase64 bufferToString
  rw [hcanon]
  rw [b64_roundtrip (charsToBytes p) ?hb]
  case hb =>
    intro b hb
    obtain ⟨c, hc, rfl⟩ := List.mem_map.mp hb
    have := hascii c hc
    omega
  rw [bytesToChars_charsToBytes]
  exact hcanon

/-- Witness for C9: the identity canonicalizer on a short ASCII key text. -/
theorem private_key_base64_roundtrip_witness :
    loadPrivateKeyFromBase64 id (loadPrivateKeyAsBase64 id "TESTKEY".data) =
      "TESTKEY".data :=
  private_key_base64_roundtrip id "TESTKEY".data rfl (by decide)

/-- C10: the guard `keySize !== KEY_SIZE_1KB || keySize !== KEY_SIZE_2KB` is
true for every `keySize`, so the `modulusLength` handed to the key-generation
provider is always 2048 — including when `KEY_SIZE_1KB` is requested. -/
theorem key_size_guard_tautology :
    (∀ keySize : Nat, keySizeGuard keySize = true) ∧
    (∀ keySize : Nat, modulusLengthOf keySize = some 2048) ∧
    modulusLengthOf KEY_SIZE_1KB = some 2048 := by
  have hg : ∀ keySize : Nat, keySizeGuard keySize = true := by
    intro k
    simp only [keySizeGuard, KEY_SIZE_1KB, KEY_SIZE_2KB, decide_eq_true_eq]
    omega
  refine ⟨hg, fun k => ?_, by decide⟩
  simp [modulusLengthOf, hg k, KEY_SIZE_2KB]

end Crypsi
